import Mathlib

/-!
Verification of the rule engine of `bevy-tetris-0.6` (`src/main.rs`).

Shallow embedding conventions:
* the occupancy array `Matrix.occupation : Vec<i8>` (one byte per cell,
  address `y * width + x`, values 0 = Empty, 1 = Current, 2 = Locked/heap)
  is embedded as a total map `Int → Int`; the source indexes it with
  `i32` arithmetic cast to `usize`, and every in-range access coincides
  with this map;
* field geometry is the source's: `width = 10`, `full_height = 20 + 4 = 24`,
  `max_ypos = 23`, `array_size = 240`, spawn anchor `START_POS = (4, 4)`;
* ECS queries over the four blocks of the current tetromino are embedded
  as a `List (Int × Int)` of grid positions, iterated in list order
  (bevy's iteration order over a query is unspecified);
* `while` / `for` loops become fuelled recursion / folds over the loop's
  index list; real-time (timers), rendering, text and randomness are
  external inputs (`TickInput.timer`, the `TetrominoType` argument of
  `spawnStep`).
-/

namespace Tetris

/-- The list `[lo, lo+1, ..., hi]` (empty when `hi < lo`): the index
list of a Rust `lo..=hi` range over `i32`. -/
def intRange (lo hi : Int) : List Int :=
  (List.range (hi + 1 - lo).toNat).map (fun (i : Nat) => lo + (i : Int))

/-- Point update of the occupancy map: `occupation[a] = v`. -/
def updOcc (occ : Int → Int) (a v : Int) : Int → Int :=
  fun b => if b = a then v else occ b

/-- Source `main.rs:1416-1501`, `rotate_block`: rotate one block within the
bounding box of the current tetromino.  Direct transcription of the
source's brute-force match; unknown `(size, rot, rel)` combinations
leave the block unchanged. -/
def rotate_block (x y min_x min_y size_x size_y desired_rot : Int) :
    Int × Int :=
  let rel_x := x - min_x
  let rel_y := y - min_y
  match size_x, size_y, desired_rot, rel_x, rel_y with
  -- VBar, rotate+
  | 1, 4, 1, 0, 0 => (x - 1, y + 1)
  | 1, 4, 1, 0, 1 => (x, y)
  | 1, 4, 1, 0, 2 => (x + 1, y - 1)
  | 1, 4, 1, 0, 3 => (x + 2, y - 2)
  -- VBar, rotate-
  | 1, 4, -1, 0, 0 => (x + 1, y + 1)
  | 1, 4, -1, 0, 1 => (x, y)
  | 1, 4, -1, 0, 2 => (x - 1, y - 1)
  | 1, 4, -1, 0, 3 => (x - 2, y - 2)
  -- HBar, rotate+
  | 4, 1, 1, 0, 0 => (x + 1, y - 1)
  | 4, 1, 1, 1, 0 => (x, y)
  | 4, 1, 1, 2, 0 => (x - 1, y + 1)
  | 4, 1, 1, 3, 0 => (x - 2, y + 2)
  -- HBar, rotate-
  | 4, 1, -1, 0, 0 => (x + 2, y + 2)
  | 4, 1, -1, 1, 0 => (x + 1, y + 1)
  | 4, 1, -1, 2, 0 => (x, y)
  | 4, 1, -1, 3, 0 => (x - 1, y - 1)
  -- VRect, rotate-
  | 2, 3, -1, 0, 0 => (x, y + 1)
  | 2, 3, -1, 1, 0 => (x - 1, y)
  | 2, 3, -1, 0, 1 => (x + 1, y)
  | 2, 3, -1, 1, 1 => (x, y - 1)
  | 2, 3, -1, 0, 2 => (x + 2, y - 1)
  | 2, 3, -1, 1, 2 => (x + 1, y - 2)
  -- VRect, rotate+
  | 2, 3, 1, 0, 0 => (x + 1, y)
  | 2, 3, 1, 1, 0 => (x, y + 1)
  | 2, 3, 1, 0, 1 => (x, y - 1)
  | 2, 3, 1, 1, 1 => (x - 1, y)
  | 2, 3, 1, 0, 2 => (x - 1, y - 2)
  | 2, 3, 1, 1, 2 => (x - 2, y - 1)
  -- HRect, rotate+
  | 3, 2, 1, 0, 0 => (x + 2, y)
  | 3, 2, 1, 1, 0 => (x + 1, y + 1)
  | 3, 2, 1, 2, 0 => (x, y + 2)
  | 3, 2, 1, 0, 1 => (x + 1, y - 1)
  | 3, 2, 1, 1, 1 => (x, y)
  | 3, 2, 1, 2, 1 => (x - 1, y + 1)
  -- HRect, rotate-
  | 3, 2, -1, 0, 0 => (x, y + 2)
  | 3, 2, -1, 1, 0 => (x - 1, y + 1)
  | 3, 2, -1, 2, 0 => (x - 2, y)
  | 3, 2, -1, 0, 1 => (x + 1, y + 1)
  | 3, 2, -1, 1, 1 => (x, y)
  | 3, 2, -1, 2, 1 => (x - 1, y - 1)
  -- What?
  | _, _, _, _, _ => (x, y)

/-! ### Line clearing (`spawn_current_tetromino`, `main.rs:580-634`) -/

/-- Source `main.rs:584-592`: is row `y` completely on the heap?  The source
initialises `full_row = true` and clears it for every cell whose
occupation value is not 2, scanning all ten cells without a break. -/
def rowFull (occ : Int → Int) (y : Int) : Bool :=
  (intRange 0 9).foldl
    (fun full_row x => if occ (10 * y + x) ≠ 2 then false else full_row) true

/-- One iteration of the row-shift loop body `main.rs:617-621`:
copy row `y2 - 1` into row `y2` (cell by cell, left to right). -/
def copyRow (occ : Int → Int) (y2 : Int) : Int → Int :=
  (intRange 0 9).foldl
    (fun o x => updOcc o (10 * y2 + x) (o (10 * (y2 - 1) + x))) occ

/-- Source `main.rs:616-622`: `for y2 in (1..=y).rev()` — move every row above
the cleared row `y` down by one. -/
def shiftLoop (occ : Int → Int) (y : Int) : Int → Int :=
  ((intRange 1 y).reverse).foldl (fun o y2 => copyRow o y2) occ

/-- Source `main.rs:624-629`: clear heap cells (value 2) out of the top row. -/
def clearTopRow (occ : Int → Int) : Int → Int :=
  (intRange 0 9).foldl
    (fun o x => if o x = 2 then updOcc o x 0 else o) occ

/-- The full effect of clearing row `y`: shift everything above it down,
then empty the vacated top row. -/
def clearStep (occ : Int → Int) (y : Int) : Int → Int :=
  clearTopRow (shiftLoop occ y)

/-- Source `main.rs:583-634`, the bottom-up row scan `while y >= 0 { ... }`,
embedded with explicit fuel; `none` means the fuel ran out.  A full row
is cleared and the **same** index `y` is rescanned; a non-full row
decrements `y`.  Returns the final occupancy and the number of rows
cleared (`full_rows`). -/
def scanLoop : Nat → (Int → Int) → Int → Nat → Option ((Int → Int) × Nat)
  | 0, _, _, _ => none
  | fuel + 1, occ, y, full_rows =>
    if y < 0 then some (occ, full_rows)
    else if rowFull occ y then
      scanLoop fuel (clearStep occ y) y (full_rows + 1)
    else
      scanLoop fuel occ (y - 1) full_rows

/-- The predicate `rowFull` at a natural row index (rows of the field are `0..23`). -/
def rowFullN (occ : Int → Int) (k : Nat) : Bool :=
  rowFull occ (k : Int)

/-- Number of full rows in the 24-row field. -/
def fullCount (occ : Int → Int) : Nat :=
  (List.range 24).countP (fun k => rowFullN occ k)

/-- Run the row scan from the bottom row 23 with sufficient fuel
(sufficiency is proved below); the default is never used. -/
def lineClearRun (occ : Int → Int) : (Int → Int) × Nat :=
  (scanLoop (fullCount occ * 25 + 25) occ 23 0).getD (occ, 0)

/-! ### Scoring (`spawn_current_tetromino`, `main.rs:638-655`) -/

/-- Source `main.rs:639-655`: score increment for `full_rows` rows cleared in
one cascade at the given level; the catch-all arm makes it total. -/
def clearScoreDelta (full_rows level : Nat) : Nat :=
  match full_rows with
  | 1 => 100 * level
  | 2 => 300 * level
  | 3 => 500 * level
  | 4 => 800 * level
  | x => x * 300 * level

/-! ### Piece catalog (`main.rs:190-302`) -/

/-- The seven tetromino variants (`TetrominoType`). -/
inductive TetrominoType
  | I
  | O
  | T
  | S
  | Z
  | L
  | J

/-- Table `Tetromino::BLOCK_INDICES`: the four block offsets of each
type, in declaration order, indexed by the enum ordinal
(`I=0, O=1, T=2, S=3, Z=4, L=5, J=6`).  The comments inside the source
arrays label entries 3 and 4 the other way around ("Z, red" on the
array the `S` ordinal selects, and vice versa); the assignment below
follows the ordinals, which is what `blocks_from_type` actually uses. -/
def blockIndices : TetrominoType → List (Int × Int)
  | .I => [(3, 3), (2, 3), (1, 3), (0, 3)]
  | .O => [(0, 0), (0, 1), (1, 0), (1, 1)]
  | .T => [(0, 2), (1, 2), (2, 2), (1, 1)]
  | .S => [(0, 2), (1, 2), (1, 1), (2, 1)]
  | .Z => [(2, 2), (1, 2), (1, 1), (0, 1)]
  | .L => [(2, 1), (0, 2), (1, 2), (2, 2)]
  | .J => [(0, 2), (1, 2), (2, 2), (0, 1)]

/-- Table `Tetromino::SIZES`: bounding-box side length of each type. -/
def tetSize : TetrominoType → Int
  | .I => 4
  | .O => 2
  | .T => 3
  | .Z => 3
  | .S => 3
  | .L => 3
  | .J => 3

/-- Source `main.rs:736-757`: the grid positions of a freshly spawned piece,
`(START_POS.0 + index.x, START_POS.1 - size + index.y)` with
`START_POS = (4, 4)`. -/
def spawnCells (t : TetrominoType) : List (Int × Int) :=
  (blockIndices t).map (fun p => (4 + p.1, 4 - tetSize t + p.2))

/-- Source `main.rs:739-741`: mark one spawn cell `1` (Current) in the
occupation array — unconditionally, whatever was there before. -/
def markCell (o : Int → Int) (c : Int × Int) : Int → Int :=
  updOcc o (10 * c.2 + c.1) 1

/-- Source `main.rs:736-757`: mark all four spawn cells Current. -/
def spawnMarks (t : TetrominoType) (occ : Int → Int) : Int → Int :=
  (spawnCells t).foldl markCell occ

/-! ### Game state and per-tick input -/

/-- The gameplay-relevant fields of the `Matrix` resource plus the
positions of the current tetromino's blocks (the `CurrentTetromino`
query), in query-iteration order. -/
structure GameState where
  occupation : Int → Int
  cells : List (Int × Int)
  score : Nat
  level : Nat
  linesCleared : Nat
  dropRows : Nat
  create : Bool
  active : Bool
  falling : Bool
  gameOver : Bool

/-- The edge-triggered key presses consumed by `move_current_tetromino`
in one tick; `timer` is `soft_drop_timer.just_finished()`. -/
structure TickInput where
  left : Bool
  right : Bool
  down : Bool
  timer : Bool
  rotX : Bool
  rotZ : Bool
  space : Bool
  pauseKey : Bool

/-! ### Rotation (`move_current_tetromino`, `main.rs:920-1036`) -/

/-- Source `main.rs:923-942`: bounding box of the current piece, as
`(min_x, max_x, min_y, max_y)`, with the source's initial values
`max_x = 0`, `min_x = width`, `max_y = 0`, `min_y = full_height`. -/
def pieceBounds (cells : List (Int × Int)) : Int × Int × Int × Int :=
  cells.foldl
    (fun b c =>
      (if c.1 < b.1 then c.1 else b.1,
       if c.1 > b.2.1 then c.1 else b.2.1,
       if c.2 < b.2.2.1 then c.2 else b.2.2.1,
       if c.2 > b.2.2.2 then c.2 else b.2.2.2))
    (10, 0, 24, 0)

/-- Source `main.rs:953-969`: the per-class/direction collision scan rectangle,
as `(can_rot, scan_min_x, scan_max_x, scan_min_y, scan_max_y)`.  A 2×2
box (Square) sets `can_rot = false`; an unknown box leaves the zeroed
scan bounds and `can_rot = true`, exactly as in the source. -/
def rotScanBounds (size_x size_y desired_rot min_x max_x min_y max_y : Int) :
    Bool × Int × Int × Int × Int :=
  match size_x, size_y, desired_rot with
  | 2, 2, _ => (false, 0, 0, 0, 0)
  | 1, 4, 1 => (true, min_x - 1, max_x + 2, min_y + 1, min_y + 1)
  | 1, 4, -1 => (true, min_x - 2, max_x + 1, min_y + 1, min_y + 1)
  | 4, 1, 1 => (true, min_x + 1, min_x + 1, min_y + 1, max_y + 2)
  | 4, 1, -1 => (true, min_x - 1, min_x - 1, min_y + 1, max_y + 2)
  | 2, 3, 1 => (true, min_x - 1, min_x + 1, min_y, min_y + 1)
  | 2, 3, -1 => (true, min_x, min_x + 2, min_y, min_y + 1)
  | 3, 2, 1 => (true, min_x + 1, min_x + 2, max_y + 1, max_y + 1)
  | 3, 2, -1 => (true, min_x, min_x + 1, max_y + 1, max_y + 1)
  | _, _, _ => (true, 0, 0, 0, 0)

/-- Source `main.rs:986-998`: the labelled scan `'row_scan` over the scan
rectangle.  NOTE: the source tests `matrix.occupation[address] == 1`
(Current), not `== 2` (heap), and excludes the piece's own bounding
box — transcribed verbatim. -/
def heapScanHit (occ : Int → Int)
    (scan_min_x scan_max_x scan_min_y scan_max_y
     min_x max_x min_y max_y : Int) : Bool :=
  (intRange scan_min_x scan_max_x).any fun x =>
    (intRange scan_min_y scan_max_y).any fun y =>
      decide (occ (10 * y + x) = 1 ∧
        (x < min_x ∨ x > max_x ∨ y < min_y ∨ y > max_y))

/-- Source `main.rs:921-998`: the complete `can_rot` computation: shape class
match, border check, then (if still alive) the occupancy scan. -/
def canRotate (occ : Int → Int) (cells : List (Int × Int))
    (desired_rot : Int) : Bool :=
  let b := pieceBounds cells
  let min_x := b.1
  let max_x := b.2.1
  let min_y := b.2.2.1
  let max_y := b.2.2.2
  let size_x := 1 + max_x - min_x
  let size_y := 1 + max_y - min_y
  let r := rotScanBounds size_x size_y desired_rot min_x max_x min_y max_y
  let can_rot := r.1
  let scan_min_x := r.2.1
  let scan_max_x := r.2.2.1
  let scan_min_y := r.2.2.2.1
  let scan_max_y := r.2.2.2.2
  let can_rot :=
    if scan_min_x < 0 ∨ scan_max_x ≥ 10 ∨ scan_min_y < 0 ∨ scan_max_y ≥ 24
    then false else can_rot
  if can_rot ∧
      heapScanHit occ scan_min_x scan_max_x scan_min_y scan_max_y
        min_x max_x min_y max_y = true
  then false else can_rot

/-- Source `main.rs:1000-1035`: if the rotation is allowed, move the blocks —
for each block in iteration order: clear its old cell, rotate it, mark
its new cell Current.  (The bulk clearing of the whole bounding box is
commented out in the source; the per-block interleaving is kept.) -/
def rotationPass (s : GameState) (desired_rot : Int) : GameState :=
  let b := pieceBounds s.cells
  let min_x := b.1
  let max_x := b.2.1
  let min_y := b.2.2.1
  let max_y := b.2.2.2
  let size_x := 1 + max_x - min_x
  let size_y := 1 + max_y - min_y
  if canRotate s.occupation s.cells desired_rot then
    let r := s.cells.foldl
      (fun (acc : (Int → Int) × List (Int × Int)) c =>
        let o1 := updOcc acc.1 (10 * c.2 + c.1) 0
        let p := rotate_block c.1 c.2 min_x min_y size_x size_y desired_rot
        (updOcc o1 (10 * p.2 + p.1) 1, acc.2 ++ [p]))
      (s.occupation, ([] : List (Int × Int)))
    { s with occupation := r.1, cells := r.2 }
  else s

/-- The pure geometric rotation transform: `rotate_block` applied to
every cell, relative to the piece's current bounding box (the
composition the Bar round-trip property is about). -/
def rotatePiece (cells : List (Int × Int)) (desired_rot : Int) :
    List (Int × Int) :=
  let b := pieceBounds cells
  let min_x := b.1
  let max_x := b.2.1
  let min_y := b.2.2.1
  let max_y := b.2.2.2
  cells.map fun c =>
    rotate_block c.1 c.2 min_x min_y (1 + max_x - min_x) (1 + max_y - min_y)
      desired_rot

/-! ### Movement and locking (`move_current_tetromino`, `main.rs:1038-1126`) -/

/-- Source `main.rs:1043-1074`, the `'my_piece` legality scan: running flags
`(can_move_x, can_move_y)` over the blocks in iteration order.  A block
below the floor sets `can_move_y = false` and **breaks**; once both
flags are false the scan also breaks. -/
def moveScan (occ : Int → Int) (desired_x desired_y : Int) :
    List (Int × Int) → Bool → Bool → Bool × Bool
  | [], can_move_x, can_move_y => (can_move_x, can_move_y)
  | c :: rest, can_move_x, can_move_y =>
    let can_move_x :=
      if c.1 + desired_x < 0 ∨ c.1 + desired_x > 10 - 1 then false
      else can_move_x
    if c.2 + desired_y > 23 then (can_move_x, false)
    else
      let can_move_y :=
        if can_move_y ∧ desired_y ≠ 0 ∧
            occ (10 * (c.2 + desired_y) + c.1) = 2 then false
        else can_move_y
      let can_move_x :=
        if can_move_x ∧ desired_x ≠ 0 ∧
            occ (10 * c.2 + (c.1 + desired_x)) = 2 then false
        else can_move_x
      if can_move_x = false ∧ can_move_y = false then (can_move_x, can_move_y)
      else moveScan occ desired_x desired_y rest can_move_x can_move_y

/-- Source `main.rs:1077-1093`: clear every old cell, then move each block by
the accepted axes and mark its new cell Current. -/
def applyMove (s : GameState) (can_move_x can_move_y : Bool)
    (desired_x desired_y : Int) : GameState :=
  let occ1 := s.cells.foldl (fun o c => updOcc o (10 * c.2 + c.1) 0)
    s.occupation
  let cells1 := s.cells.map fun c =>
    (if can_move_x then c.1 + desired_x else c.1,
     if can_move_y then c.2 + desired_y else c.2)
  let occ2 := cells1.foldl (fun o c => updOcc o (10 * c.2 + c.1) 1) occ1
  { s with occupation := occ2, cells := cells1 }

/-- The per-block body of the lock loop `main.rs:1098-1114`: flag game
over if this block is still in the top buffer (`y < 4`), and mark its
cell as heap (occupation value 2). -/
def lockCell (acc : GameState) (c : Int × Int) : GameState :=
  let acc := if c.2 < 4 then { acc with gameOver := true, active := false }
    else acc
  { acc with occupation := updOcc acc.occupation (10 * c.2 + c.1) 2 }

/-- Source `main.rs:1096-1124`: the piece landed — move its blocks to the heap
(occupation value 2), flag game over if any block is still in the top
buffer (`y < 4`), credit a finished hard drop with `drop_rows - 1`
points, and request the next piece unless the game is over. -/
def lockPiece (s : GameState) : GameState :=
  let s1 := s.cells.foldl lockCell s
  let s1 := { s1 with cells := [] }
  let s1 := if s1.falling then { s1 with score := s1.score + (s1.dropRows - 1) }
    else s1
  if s1.gameOver = false then { s1 with create := true } else s1

/-- Source `main.rs:1042-1126`: the horizontal/vertical movement stage.  Note
the source's guard is `(desired_x + desired_y) != 0` — the *sum*. -/
def movePass (s : GameState) (desired_x desired_y : Int) : GameState :=
  if desired_x + desired_y ≠ 0 then
    let r := moveScan s.occupation desired_x desired_y s.cells true true
    let s1 := if r.1 = true ∨ r.2 = true then
        applyMove s r.1 r.2 desired_x desired_y
      else s
    if r.2 = false ∧ desired_y ≠ 0 then lockPiece s1 else s1
  else s

/-- System `move_current_tetromino` (`main.rs:765-1127`), restricted to the
game state: intent decoding (`main.rs:792-827`), pause toggle
(`main.rs:879-894`), forced-fall override and drop-row pre-increment
(`main.rs:902-908`), the paused early return (`main.rs:911-913`), the
nothing-to-do early return (`main.rs:916-918`), then rotation and
movement.  Timer ticking, debug dumps, quit/restart triggers and text
updates touch no gameplay state. -/
def moveStep (i : TickInput) (s : GameState) : GameState :=
  let desired_x : Int := if i.right then 1 else if i.left then -1 else 0
  let desired_y : Int := if i.down ∨ i.timer then 1 else 0
  let desired_rot : Int := if i.rotZ then -1 else if i.rotX then 1 else 0
  let falling := if i.space then true else s.falling
  let active := if i.pauseKey ∧ s.gameOver = false then !s.active else s.active
  let desired_x := if falling then 0 else desired_x
  let desired_y := if falling then 1 else desired_y
  let desired_rot := if falling then 0 else desired_rot
  let dropRows := if falling then s.dropRows + 1 else s.dropRows
  let s := { s with falling := falling, active := active, dropRows := dropRows }
  if s.active = false then s
  else if desired_x = 0 ∧ desired_y = 0 ∧ desired_rot = 0 then s
  else
    let s := if desired_rot ≠ 0 then rotationPass s desired_rot else s
    movePass s desired_x desired_y

/-! ### Spawning (`spawn_current_tetromino`, `main.rs:559-761`) -/

/-- System `spawn_current_tetromino` (`main.rs:559-761`) restricted to the game state: early
return unless `create`, reset of `create`/`falling`/`drop_rows`, the
row scan, scoring and levelling (`main.rs:638-666`), then the new
piece's cells (the random type is the parameter `t`).  The drop-speed
float and timer reconfiguration are real-time presentation state. -/
def spawnStep (t : TetrominoType) (s : GameState) : GameState :=
  if s.create = false then s
  else
    let s0 := { s with create := false, falling := false, dropRows := 0 }
    let r := lineClearRun s0.occupation
    let occ1 := r.1
    let full_rows := r.2
    let s1 := { s0 with occupation := occ1 }
    let s2 :=
      if 0 < full_rows then
        let s1 := { s1 with
          score := s1.score + clearScoreDelta full_rows s1.level }
        let s1 := { s1 with linesCleared := s1.linesCleared + full_rows }
        if s1.level * 10 ≤ s1.linesCleared then
          { s1 with level := min (s1.level + 1) 20, linesCleared := 0 }
        else s1
      else s1
    { s2 with occupation := spawnMarks t s2.occupation,
              cells := spawnCells t }

/-- Number of Current cells in the 240-cell occupation array. -/
def countCurrent (occ : Int → Int) : Nat :=
  (List.range 240).countP (fun a => decide (occ (a : Int) = 1))

/-! ## Claim C1: rotation collision against the heap -/

/-- A vertical bar at `x = 5`, `y = 10..13` (Current, value 1), with a
single heap block (Locked, value 2) at `(4, 11)` — address 114. -/
def c1occ : Int → Int := fun a =>
  if a = 114 then 2
  else if a = 105 ∨ a = 115 ∨ a = 125 ∨ a = 135 then 1 else 0

/-- Game state for claim C1. -/
def c1state : GameState :=
  { occupation := c1occ, cells := [(5, 10), (5, 11), (5, 12), (5, 13)],
    score := 0, level := 1, linesCleared := 0, dropRows := 0,
    create := false, active := true, falling := false, gameOver := false }

/-! ### Concrete states and inputs used by the claim theorems -/

/-- A T tetromino exactly as spawned (`main.rs:736-757`): cells
`(4,3), (5,3), (6,3), (5,2)` in spawn (iteration) order, on an otherwise
empty grid. -/
def c2occ : Int → Int := fun a =>
  if a = 34 ∨ a = 35 ∨ a = 36 ∨ a = 25 then 1 else 0

/-- Game state for claim C2. -/
def c2state : GameState :=
  { occupation := c2occ, cells := [(4, 3), (5, 3), (6, 3), (5, 2)],
    score := 0, level := 1, linesCleared := 0, dropRows := 0,
    create := false, active := true, falling := false, gameOver := false }

/-- A J tetromino resting on the floor against the right wall:
cells `(7,23), (8,23), (9,23), (7,22)` in spawn order. -/
def c3occ : Int → Int := fun a =>
  if a = 237 ∨ a = 238 ∨ a = 239 ∨ a = 227 then 1 else 0

/-- Game state for claim C3. -/
def c3state : GameState :=
  { occupation := c3occ, cells := [(7, 23), (8, 23), (9, 23), (7, 22)],
    score := 0, level := 1, linesCleared := 0, dropRows := 0,
    create := false, active := true, falling := false, gameOver := false }

/-- Tick input for claim C3: Right pressed on a tick whose drop timer
also fired, so `desired_x = 1` and `desired_y = 1`. -/
def c3input : TickInput :=
  { left := false, right := true, down := false, timer := true,
    rotX := false, rotZ := false, space := false, pauseKey := false }

/-- A horizontal bar on the bottom row, blocked by the floor. -/
def c4occ : Int → Int := fun a =>
  if a = 234 ∨ a = 235 ∨ a = 236 ∨ a = 237 then 1 else 0

/-- Game state for claim C4. -/
def c4state : GameState :=
  { occupation := c4occ, cells := [(4, 23), (5, 23), (6, 23), (7, 23)],
    score := 0, level := 1, linesCleared := 0, dropRows := 0,
    create := false, active := true, falling := false, gameOver := false }

/-- Tick input for claim C4: Left pressed on a tick whose drop timer
also fired, so `desired_x = -1` and `desired_y = 1`. -/
def c4input : TickInput :=
  { left := true, right := false, down := false, timer := true,
    rotX := false, rotZ := false, space := false, pauseKey := false }

/-- The vertical bar at `x = 5`, `y = 10..13` used as the round-trip
counterexample. -/
def c5vbar : List (Int × Int) := [(5, 10), (5, 11), (5, 12), (5, 13)]

/-- A vertical bar with top cell `(c, y0)`, cells listed top to bottom. -/
def vbarAt (c y0 : Nat) : List (Int × Int) :=
  [((c : Int), (y0 : Int)), ((c : Int), (y0 : Int) + 1),
   ((c : Int), (y0 : Int) + 2), ((c : Int), (y0 : Int) + 3)]

/-- A horizontal bar with left cell `(x0, r)`, cells listed left to
right. -/
def hbarAt (x0 r : Nat) : List (Int × Int) :=
  [((x0 : Int), (r : Int)), ((x0 : Int) + 1, (r : Int)),
   ((x0 : Int) + 2, (r : Int)), ((x0 : Int) + 3, (r : Int))]

/-- An empty, spawn-pending state for the claim C6 witness. -/
def c6wState : GameState :=
  { occupation := fun _ => 0, cells := [], score := 0, level := 1,
    linesCleared := 0, dropRows := 0, create := true, active := true,
    falling := false, gameOver := false }

/-- Occupancy for the claim C8 witness: a bar on the bottom row. -/
def c8occ : Int → Int := fun a =>
  if a = 234 ∨ a = 235 ∨ a = 236 ∨ a = 237 then 1 else 0

/-- State for the claim C8 witness: a hard-dropping bar that has
already fallen 5 rows (`drop_rows = 5`) and is now resting on the
floor, so this tick pre-increments the counter to 6 and locks. -/
def c8state : GameState :=
  { occupation := c8occ, cells := [(4, 23), (5, 23), (6, 23), (7, 23)],
    score := 0, level := 1, linesCleared := 0, dropRows := 5,
    create := false, active := true, falling := true, gameOver := false }

/-- Input for the claim C8 witness: no keys; the drop is forced. -/
def c8input : TickInput :=
  { left := false, right := false, down := false, timer := false,
    rotX := false, rotZ := false, space := false, pauseKey := false }

/-- A paused mid-game state (an O piece in the buffer, not falling). -/
def c9state : GameState :=
  { occupation := fun a => if a = 24 ∨ a = 34 ∨ a = 25 ∨ a = 35 then 1 else 0,
    cells := [(4, 2), (4, 3), (5, 2), (5, 3)], score := 0, level := 1,
    linesCleared := 0, dropRows := 0, create := false, active := false,
    falling := false, gameOver := false }

/-- HardDrop (Space) pressed while paused. -/
def c9input : TickInput :=
  { left := false, right := false, down := false, timer := false,
    rotX := false, rotZ := false, space := true, pauseKey := false }

/-- A second paused-tick input: movement, rotation and timer intents
only. -/
def c9wInput : TickInput :=
  { left := true, right := false, down := true, timer := true,
    rotX := true, rotZ := false, space := false, pauseKey := false }

/-- A grid whose every cell is Locked, for the claim C10 witness. -/
def c10occ : Int → Int := fun _ => 2

/-- The all-empty grid, for the claim C7 witness. -/
def c7occ : Int → Int := fun _ => 0

/-- A grid whose bottom row (addresses 230-239) is fully Locked. -/
def c7full : Int → Int := fun a => if 230 ≤ a ∧ a ≤ 239 then 2 else 0

/-- Claim C1 (the code violates it).  The clockwise rotation of the
vertical bar scans the rectangle `x ∈ [4,7], y = 11`, which contains the
Locked cell `(4, 11)` — a cell outside the piece's footprint — so by the
claim the rotation must be rejected.  The source's scan
(`main.rs:986-998`) tests the scanned cell against occupation value 1
(Current) instead of 2 (Locked), so the Locked cell does not block: the
rotation is applied, the bar lands on `(4, 11)` and its heap mark is
overwritten with Current. -/
theorem C1_locked_cell_does_not_block_rotation :
    c1occ (10 * 11 + 4) = 2 ∧
    rotScanBounds 1 4 1 5 5 10 13 = (true, 4, 7, 11, 11) ∧
    canRotate c1occ c1state.cells 1 = true ∧
    (rotationPass c1state 1).cells = [(4, 11), (5, 11), (6, 11), (7, 11)] ∧
    (rotationPass c1state 1).occupation (10 * 11 + 4) = 1 := by
  exact ⟨by decide, by decide, by decide, by decide, by decide⟩

/-! ## Claim C2: grid/piece agreement after every operation -/

set_option maxRecDepth 8000 in
/-- Claim C2 (the code violates it).  Before the rotation the grid
agrees with the piece (4 Current cells).  The clockwise rotation is
accepted, but the per-block clear-then-mark interleaving of
`main.rs:1011-1030` lets the second block's clear erase the first
block's freshly written mark: afterwards only 3 cells are Current, and
the piece block at `(5, 2)` sits on a cell marked Empty — the count of
Current cells is neither 0 nor 4 and the Current cells are not the
piece's cells. -/
theorem C2_rotation_breaks_grid_piece_agreement :
    countCurrent c2state.occupation = 4 ∧
    canRotate c2occ c2state.cells 1 = true ∧
    countCurrent (rotationPass c2state 1).occupation = 3 ∧
    (rotationPass c2state 1).cells = [(5, 2), (5, 3), (5, 4), (6, 3)] ∧
    (5, 2) ∈ (rotationPass c2state 1).cells ∧
    (rotationPass c2state 1).occupation (10 * 2 + 5) = 0 := by
  exact ⟨by decide, by decide, by decide, by decide, by decide, by decide⟩

/-! ## Claim C3: per-axis atomicity of the movement check -/

/-- Claim C3 (the code violates it).  Cell `(9, 23)` fails the x-axis
wall check (`9 + 1 > width - 1`), so by the claim the x move must be
rejected.  But the first cell `(7, 23)` hits the floor, and the
`break 'my_piece` of `main.rs:1052` aborts the scan before `(9, 23)` is
ever tested: the scan returns `can_move_x = true`, the piece is moved
right — one block now at `(10, 23)`, outside the field — and then
locked, writing occupation address `10·23 + 10 = 240`, which is out of
bounds for the 240-byte array (an index panic in the source; the
embedding's total map records the write). -/
theorem C3_floor_break_skips_wall_check :
    ((9 : Int) + 1 < 0 ∨ (9 : Int) + 1 > 10 - 1) ∧
    (9, 23) ∈ c3state.cells ∧
    moveScan c3occ 1 1 c3state.cells true true = (true, false) ∧
    (moveStep c3input c3state).occupation 240 = 2 ∧
    (moveStep c3input c3state).occupation 237 = 0 ∧
    (moveStep c3input c3state).create = true := by
  exact ⟨by decide, by decide, by decide, by decide, by decide, by decide⟩

/-! ## Claim C4: simultaneous left + down intents -/

/-- Claim C4 (the code violates it).  With `desired_x = -1` and
`desired_y = 1` the downward move is blocked by the floor, so by the
claim the axes are tested and the piece locks.  But the guard at
`main.rs:1042` is `(desired_x + desired_y) != 0`, and `-1 + 1 = 0`: the
whole movement/lock stage is skipped.  Nothing is tested, nothing moves,
and the blocked piece does not lock (`create` stays false, the state is
unchanged). -/
theorem C4_left_plus_down_tick_is_ignored :
    (moveScan c4occ (-1) 1 c4state.cells true true).2 = false ∧
    moveStep c4input c4state = c4state ∧
    c4state.create = false := by
  exact ⟨by decide, rfl, rfl⟩

/-! ## Claim C5: Bar-class rotation round trips -/

/-- Claim C5 (the code violates it).  Rotating the vertical bar CW and
then CCW yields the bar translated one column to the right (and CCW
then CW one column to the left) — no cell of the result is one of the
original 4 cells, so the round trip does not restore the piece. -/
theorem C5_bar_cw_ccw_roundtrip_fails :
    rotatePiece (rotatePiece c5vbar 1) (-1) =
      [(6, 13), (6, 12), (6, 11), (6, 10)] ∧
    rotatePiece (rotatePiece c5vbar (-1)) 1 =
      [(4, 13), (4, 12), (4, 11), (4, 10)] ∧
    ∀ p ∈ rotatePiece (rotatePiece c5vbar 1) (-1), p ∉ c5vbar := by
  exact ⟨by decide, by decide, by decide⟩

set_option maxRecDepth 8000 in
set_option maxHeartbeats 4000000 in
/-- Claim C5, amended: rotating a Bar-class piece CW then CCW (or CCW
then CW) never restores its 4 cells — it yields the same bar translated
one column sideways, with the direction depending on the orientation: a
*vertical* bar moves one column right under CW-then-CCW and one column
left under CCW-then-CW, while a *horizontal* bar moves one column left
under CW-then-CCW and one column right under CCW-then-CW.  Rotating
twice in the *same* direction (CW twice, or CCW twice) returns the bar
exactly to its original 4 cell positions.  All eight facts are proved
for every in-field bar of either orientation. -/
theorem C5_bar_same_direction_double_rotation_is_identity :
    (∀ c : Nat, c < 10 → ∀ y0 : Nat, y0 < 21 →
      rotatePiece (rotatePiece (vbarAt c y0) 1) 1 = vbarAt c y0 ∧
      rotatePiece (rotatePiece (vbarAt c y0) (-1)) (-1) = vbarAt c y0 ∧
      rotatePiece (rotatePiece (vbarAt c y0) 1) (-1) =
        [((c : Int) + 1, (y0 : Int) + 3), ((c : Int) + 1, (y0 : Int) + 2),
         ((c : Int) + 1, (y0 : Int) + 1), ((c : Int) + 1, (y0 : Int))] ∧
      rotatePiece (rotatePiece (vbarAt c y0) (-1)) 1 =
        [((c : Int) - 1, (y0 : Int) + 3), ((c : Int) - 1, (y0 : Int) + 2),
         ((c : Int) - 1, (y0 : Int) + 1), ((c : Int) - 1, (y0 : Int))]) ∧
    (∀ x0 : Nat, x0 < 7 → ∀ r : Nat, r < 24 →
      rotatePiece (rotatePiece (hbarAt x0 r) 1) 1 = hbarAt x0 r ∧
      rotatePiece (rotatePiece (hbarAt x0 r) (-1)) (-1) = hbarAt x0 r ∧
      rotatePiece (rotatePiece (hbarAt x0 r) 1) (-1) =
        [((x0 : Int) + 2, (r : Int)), ((x0 : Int) + 1, (r : Int)),
         ((x0 : Int), (r : Int)), ((x0 : Int) - 1, (r : Int))] ∧
      rotatePiece (rotatePiece (hbarAt x0 r) (-1)) 1 =
        [((x0 : Int) + 4, (r : Int)), ((x0 : Int) + 3, (r : Int)),
         ((x0 : Int) + 2, (r : Int)), ((x0 : Int) + 1, (r : Int))]) := by
  exact ⟨by decide, by decide⟩

/-- Witness for the amended claim C5: same-direction identities at the
concrete bars, and the one-column-left shift of a horizontal bar under
CW-then-CCW. -/
theorem C5_bar_same_direction_witness :
    rotatePiece (rotatePiece (vbarAt 5 10) 1) 1 = vbarAt 5 10 ∧
    rotatePiece (rotatePiece (hbarAt 3 11) (-1)) (-1) = hbarAt 3 11 ∧
    rotatePiece (rotatePiece (hbarAt 3 11) 1) (-1) =
      [((3 : Int) + 2, (11 : Int)), ((3 : Int) + 1, (11 : Int)),
       ((3 : Int), (11 : Int)), ((3 : Int) - 1, (11 : Int))] :=
  ⟨(C5_bar_same_direction_double_rotation_is_identity.1 5 (by decide) 10
      (by decide)).1,
   (C5_bar_same_direction_double_rotation_is_identity.2 3 (by decide) 11
      (by decide)).2.1,
   (C5_bar_same_direction_double_rotation_is_identity.2 3 (by decide) 11
      (by decide)).2.2.1⟩

/-! ## Claim C6: cascade scoring -/

/-- Helper: the score field of `spawnStep` on a state awaiting a spawn. -/
theorem spawnStep_score (t : TetrominoType) (s : GameState)
    (h : s.create = true) :
    (spawnStep t s).score = s.score +
      (if 0 < (lineClearRun s.occupation).2 then
        clearScoreDelta (lineClearRun s.occupation).2 s.level else 0) := by
  unfold spawnStep
  rw [h]
  simp only [Bool.true_eq_false, if_false]
  split
  · split <;> rfl
  · simp

/-- Claim C6: the points for a cascade of `n ≥ 1` rows at level `L` are
`100·L, 300·L, 500·L, 800·L` for `n = 1..4` and `300·n·L` for `n > 4`
(the catch-all arm of the total function — no panic), with the three
concrete instances of the claim, and `spawnStep` adds exactly that
amount to the score when rows were cleared. -/
theorem C6_cascade_scoring_formula :
    (∀ level : Nat, clearScoreDelta 1 level = 100 * level) ∧
    (∀ level : Nat, clearScoreDelta 2 level = 300 * level) ∧
    (∀ level : Nat, clearScoreDelta 3 level = 500 * level) ∧
    (∀ level : Nat, clearScoreDelta 4 level = 800 * level) ∧
    (∀ n level : Nat, 4 < n → clearScoreDelta n level = 300 * n * level) ∧
    clearScoreDelta 1 1 = 100 ∧
    clearScoreDelta 4 3 = 2400 ∧
    clearScoreDelta 5 1 = 1500 ∧
    (∀ (t : TetrominoType) (s : GameState), s.create = true →
      (spawnStep t s).score = s.score +
        (if 0 < (lineClearRun s.occupation).2 then
          clearScoreDelta (lineClearRun s.occupation).2 s.level else 0)) := by
  refine ⟨fun _ => rfl, fun _ => rfl, fun _ => rfl, fun _ => rfl,
    ?_, rfl, rfl, rfl, spawnStep_score⟩
  intro n level h
  obtain ⟨m, rfl⟩ : ∃ m, n = m + 5 := ⟨n - 5, by omega⟩
  show (m + 5) * 300 * level = 300 * (m + 5) * level
  ring

/-- Witness for claim C6: the catch-all arm at `n = 7`, `L = 2`, and the
spawn-step score equation on a concrete state. -/
theorem C6_cascade_scoring_witness :
    clearScoreDelta 7 2 = 300 * 7 * 2 ∧
    (spawnStep TetrominoType.O c6wState).score = c6wState.score +
      (if 0 < (lineClearRun c6wState.occupation).2 then
        clearScoreDelta (lineClearRun c6wState.occupation).2 c6wState.level
      else 0) :=
  ⟨C6_cascade_scoring_formula.2.2.2.2.1 7 2 (by decide),
   C6_cascade_scoring_formula.2.2.2.2.2.2.2.2 TetrominoType.O c6wState rfl⟩

/-! ## Helper lemmas about the lock fold -/

/-- The lock loop never touches the score. -/
theorem lockFold_score (cs : List (Int × Int)) (a : GameState) :
    (cs.foldl lockCell a).score = a.score := by
  induction cs generalizing a with
  | nil => rfl
  | cons c cs ih =>
    rw [List.foldl_cons, ih]
    unfold lockCell
    split <;> rfl

/-- The lock loop never touches the drop-row counter. -/
theorem lockFold_dropRows (cs : List (Int × Int)) (a : GameState) :
    (cs.foldl lockCell a).dropRows = a.dropRows := by
  induction cs generalizing a with
  | nil => rfl
  | cons c cs ih =>
    rw [List.foldl_cons, ih]
    unfold lockCell
    split <;> rfl

/-- The lock loop never touches the forced-fall flag. -/
theorem lockFold_falling (cs : List (Int × Int)) (a : GameState) :
    (cs.foldl lockCell a).falling = a.falling := by
  induction cs generalizing a with
  | nil => rfl
  | cons c cs ih =>
    rw [List.foldl_cons, ih]
    unfold lockCell
    split <;> rfl

/-- The lock loop never touches the spawn request flag. -/
theorem lockFold_create (cs : List (Int × Int)) (a : GameState) :
    (cs.foldl lockCell a).create = a.create := by
  induction cs generalizing a with
  | nil => rfl
  | cons c cs ih =>
    rw [List.foldl_cons, ih]
    unfold lockCell
    split <;> rfl

/-- The lock loop flags game over exactly when some locked block lies
in the spawn buffer (`y < 4`). -/
theorem lockFold_gameOver (cs : List (Int × Int)) (a : GameState) :
    (cs.foldl lockCell a).gameOver =
      (a.gameOver || cs.any (fun c => decide (c.2 < 4))) := by
  induction cs generalizing a with
  | nil => simp
  | cons c cs ih =>
    rw [List.foldl_cons, ih]
    unfold lockCell
    by_cases h : c.2 < 4 <;> simp [h, Bool.or_assoc]

/-- Score after `lockPiece` when the piece was under forced fall. -/
theorem lockPiece_score_falling (s : GameState) (h : s.falling = true) :
    (lockPiece s).score = s.score + (s.dropRows - 1) := by
  unfold lockPiece
  simp only [lockFold_falling, lockFold_score, lockFold_dropRows, h,
    if_true]
  split <;> rfl

/-- The drop-row counter survives `lockPiece` unchanged. -/
theorem lockPiece_dropRows (s : GameState) :
    (lockPiece s).dropRows = s.dropRows := by
  unfold lockPiece
  simp only [lockFold_dropRows]
  split <;> split <;> simp [lockFold_dropRows]

/-- Game over after `lockPiece`: exactly when it was already set or a
locked block sits in the spawn buffer. -/
theorem lockPiece_gameOver (s : GameState) :
    (lockPiece s).gameOver =
      (s.gameOver || s.cells.any (fun c => decide (c.2 < 4))) := by
  unfold lockPiece
  simp only [lockFold_gameOver]
  split <;> split <;> simp [lockFold_gameOver]

/-- Projections of `applyMove` that it leaves unchanged. -/
theorem applyMove_score (s : GameState) (cx cy : Bool) (dx dy : Int) :
    (applyMove s cx cy dx dy).score = s.score := rfl

/-- The drop-row counter is not touched by `applyMove`. -/
theorem applyMove_dropRows (s : GameState) (cx cy : Bool) (dx dy : Int) :
    (applyMove s cx cy dx dy).dropRows = s.dropRows := rfl

/-- The forced-fall flag is not touched by `applyMove`. -/
theorem applyMove_falling (s : GameState) (cx cy : Bool) (dx dy : Int) :
    (applyMove s cx cy dx dy).falling = s.falling := rfl

/-- The game-over flag is not touched by `applyMove`. -/
theorem applyMove_gameOver (s : GameState) (cx cy : Bool) (dx dy : Int) :
    (applyMove s cx cy dx dy).gameOver = s.gameOver := rfl

/-- The spawn request flag is not touched by `applyMove`. -/
theorem applyMove_create (s : GameState) (cx cy : Bool) (dx dy : Int) :
    (applyMove s cx cy dx dy).create = s.create := rfl

/-! ## Claim C8: hard-drop scoring -/

/-- Claim C8: on the tick that locks a piece under forced fall
(`falling = true`, downward move blocked), the drop-row counter is
pre-incremented and exactly `accumulated - 1` points are added to the
score, independent of the level.  The hypotheses: the session is
active, the pause key is not pressed this tick, and the drop of the
piece is blocked (`moveScan` rejects the y axis). -/
theorem C8_hard_drop_scoring (i : TickInput) (s : GameState)
    (hf : s.falling = true) (ha : s.active = true) (hp : i.pauseKey = false)
    (hblock : (moveScan s.occupation 0 1 s.cells true true).2 = false) :
    (moveStep i s).dropRows = s.dropRows + 1 ∧
    (moveStep i s).score = s.score + ((s.dropRows + 1) - 1) := by
  cases hcx : (moveScan s.occupation 0 1 s.cells true true).1 <;>
    cases hsp : i.space <;>
      exact ⟨by simp [moveStep, movePass, hf, ha, hp, hsp, hblock, hcx,
          lockPiece_dropRows, applyMove_dropRows],
        by simp [moveStep, movePass, hf, ha, hp, hsp, hblock, hcx,
          lockPiece_score_falling, applyMove_score, applyMove_dropRows,
          applyMove_falling]⟩

/-- Witness for claim C8: a piece whose accumulated drop-row count at
lock time is 6 gains exactly 5 points. -/
theorem C8_hard_drop_scoring_witness :
    (moveStep c8input c8state).dropRows = 6 ∧
    (moveStep c8input c8state).score = 5 := by
  have h := C8_hard_drop_scoring c8input c8state rfl rfl rfl (by decide)
  exact ⟨h.1, h.2⟩

/-! ## Claim C9: behaviour while paused -/

/-- Claim C9 (the code violates it).  Space is handled at
`main.rs:825-827` and the forced-fall bookkeeping at `main.rs:903-908`,
both *before* the paused early-return of `main.rs:911-913`: pressing
HardDrop while paused flips the forced-fall flag and bumps the
drop-row counter, although the claim says no session counter or flag
may change. -/
theorem C9_paused_hard_drop_mutates_state :
    c9state.active = false ∧ c9state.falling = false ∧
    c9state.dropRows = 0 ∧
    (moveStep c9input c9state).falling = true ∧
    (moveStep c9input c9state).dropRows = 1 := by
  exact ⟨rfl, rfl, rfl, by decide, by decide⟩

/-- Claim C9, amended: while the session is paused (and the pause key
is not pressed this tick), movement, rotation and timer intents are
ignored — cell positions, occupancy, score, level, lines counter,
game-over and spawn flags are all unchanged — but the HardDrop intent
still sets the forced-fall flag, and while that flag is set the
drop-row counter increments even on a paused tick. -/
theorem C9_paused_tick_effects (i : TickInput) (s : GameState)
    (hact : s.active = false) (hp : i.pauseKey = false) :
    (moveStep i s).cells = s.cells ∧
    (moveStep i s).occupation = s.occupation ∧
    (moveStep i s).score = s.score ∧
    (moveStep i s).level = s.level ∧
    (moveStep i s).linesCleared = s.linesCleared ∧
    (moveStep i s).gameOver = s.gameOver ∧
    (moveStep i s).create = s.create ∧
    (moveStep i s).active = false ∧
    (moveStep i s).falling = (if i.space then true else s.falling) ∧
    (moveStep i s).dropRows =
      (if (if i.space then true else s.falling) = true then s.dropRows + 1
       else s.dropRows) := by
  cases hsp : i.space <;> cases hf : s.falling <;>
    simp [moveStep, hact, hp, hsp, hf]

/-- Witness for the amended claim C9: on the concrete paused state, a
tick full of movement/rotation/timer intents changes nothing. -/
theorem C9_paused_tick_effects_witness :
    (moveStep c9wInput c9state).cells = c9state.cells ∧
    (moveStep c9wInput c9state).occupation = c9state.occupation ∧
    (moveStep c9wInput c9state).score = c9state.score ∧
    (moveStep c9wInput c9state).active = false :=
  ⟨(C9_paused_tick_effects c9wInput c9state rfl rfl).1,
   (C9_paused_tick_effects c9wInput c9state rfl rfl).2.1,
   (C9_paused_tick_effects c9wInput c9state rfl rfl).2.2.1,
   (C9_paused_tick_effects c9wInput c9state rfl rfl).2.2.2.2.2.2.2.1⟩

/-! ## Claim C10: spawning is unconditional; loss only at lock -/

/-- Value of the occupancy map after the spawn-marking fold: 1 on every
marked cell, unchanged elsewhere (all the fold's writes are 1). -/
theorem markFold_getValue (cs : List (Int × Int)) (occ : Int → Int)
    (a : Int) :
    (cs.foldl markCell occ) a =
      if ∃ c ∈ cs, a = 10 * c.2 + c.1 then 1 else occ a := by
  induction cs generalizing occ with
  | nil => simp
  | cons d cs ih =>
    rw [List.foldl_cons, ih]
    by_cases hmem : ∃ c ∈ cs, a = 10 * c.2 + c.1
    · have hmem2 : ∃ c ∈ d :: cs, a = 10 * c.2 + c.1 := by
        obtain ⟨c, hc, hca⟩ := hmem
        exact ⟨c, List.mem_cons_of_mem d hc, hca⟩
      rw [if_pos hmem, if_pos hmem2]
    · rw [if_neg hmem]
      by_cases hd : a = 10 * d.2 + d.1
      · have hmem2 : ∃ c ∈ d :: cs, a = 10 * c.2 + c.1 :=
          ⟨d, List.mem_cons_self d cs, hd⟩
        rw [if_pos hmem2]
        simp [markCell, updOcc, hd]
      · have hmem2 : ¬∃ c ∈ d :: cs, a = 10 * c.2 + c.1 := by
          rintro ⟨c, hc, hca⟩
          rcases List.mem_cons.1 hc with rfl | hc
          · exact hd hca
          · exact hmem ⟨c, hc, hca⟩
        rw [if_neg hmem2]
        simp [markCell, updOcc, hd]

/-- The spawn system never touches the game-over flag. -/
theorem spawnStep_gameOver (t : TetrominoType) (s : GameState) :
    (spawnStep t s).gameOver = s.gameOver := by
  simp only [spawnStep]
  split
  · rfl
  · split
    · split <;> rfl
    · rfl

/-- Claim C10: spawning marks all 4 spawn cells Current whatever the
grid held there before (no legality check, a Locked cell is silently
overwritten), the spawn system never signals game over, and the
game-over flag is raised exactly when a piece locks with a block in
the buffer rows (`y < 4`). -/
theorem C10_spawn_unconditional_and_loss_only_at_lock :
    (∀ (t : TetrominoType) (occ : Int → Int), ∀ c ∈ spawnCells t,
      spawnMarks t occ (10 * c.2 + c.1) = 1) ∧
    (∀ (t : TetrominoType) (s : GameState),
      (spawnStep t s).gameOver = s.gameOver) ∧
    (∀ s : GameState,
      (lockPiece s).gameOver =
        (s.gameOver || s.cells.any (fun c => decide (c.2 < 4)))) := by
  refine ⟨?_, spawnStep_gameOver, lockPiece_gameOver⟩
  intro t occ c hc
  unfold spawnMarks
  rw [markFold_getValue]
  exact if_pos ⟨c, hc, rfl⟩

/-- Witness for claim C10: the cell `(4, 2)` of the O piece's spawn
footprint is Locked beforehand and Current (value 1) after spawning —
silently overwritten. -/
theorem C10_spawn_witness :
    c10occ (10 * 2 + 4) = 2 ∧
    spawnMarks TetrominoType.O c10occ (10 * 2 + 4) = 1 :=
  ⟨rfl, C10_spawn_unconditional_and_loss_only_at_lock.1 TetrominoType.O
    c10occ (4, 2) (by decide)⟩

/-! ## Helper lemmas for the line-clear scan (claim C7) -/

/-- Membership in the embedded Rust range. -/
theorem mem_intRange (lo hi x : Int) :
    x ∈ intRange lo hi ↔ lo ≤ x ∧ x ≤ hi := by
  unfold intRange
  simp only [List.mem_map, List.mem_range]
  constructor
  · rintro ⟨i, hi2, rfl⟩
    omega
  · rintro ⟨h1, h2⟩
    exact ⟨(x - lo).toNat, by omega, by omega⟩

/-- Splitting the last element off a nonempty embedded range. -/
theorem intRange_snoc (lo hi : Int) (h : lo ≤ hi) :
    intRange lo hi = intRange lo (hi - 1) ++ [hi] := by
  unfold intRange
  have h1 : hi - 1 + 1 - lo = hi - lo := by ring
  have hn : (hi + 1 - lo).toNat = (hi - lo).toNat + 1 := by omega
  rw [h1, hn, List.range_succ, List.map_append, List.map_cons, List.map_nil]
  congr 1
  have h2 : lo + (((hi - lo).toNat : Nat) : Int) = hi := by omega
  rw [h2]

/-- The reversed range peels its head. -/
theorem intRange_reverse_cons (lo hi : Int) (h : lo ≤ hi) :
    (intRange lo hi).reverse = hi :: (intRange lo (hi - 1)).reverse := by
  rw [intRange_snoc lo hi h, List.reverse_append]
  rfl

/-- The full-row fold is the conjunction of the per-cell tests. -/
theorem foldl_fullRow (p : Int → Prop) [DecidablePred p] :
    ∀ (xs : List Int) (b : Bool),
      xs.foldl (fun full_row x => if p x then false else full_row) b
        = (b && xs.all fun x => !(decide (p x))) := by
  intro xs
  induction xs with
  | nil => intro b; simp
  | cons x xs ih =>
    intro b
    rw [List.foldl_cons, ih, List.all_cons]
    by_cases h : p x <;> simp [h]

/-- Congruence for `List.all` under pointwise equality on members. -/
theorem all_congr_mem {α : Type} (l : List α) (f g : α → Bool)
    (h : ∀ x ∈ l, f x = g x) : l.all f = l.all g := by
  induction l with
  | nil => rfl
  | cons a l ih =>
    rw [List.all_cons, List.all_cons, h a (List.mem_cons_self a l),
      ih fun x hx => h x (List.mem_cons_of_mem a hx)]

/-- The predicate `rowFull` as an `all` over the ten cells of the row. -/
theorem rowFull_eq_all (occ : Int → Int) (y : Int) :
    rowFull occ y =
      (intRange 0 9).all fun x => decide (occ (10 * y + x) = 2) := by
  unfold rowFull
  rw [foldl_fullRow (fun x => occ (10 * y + x) ≠ 2)]
  simp only [Bool.true_and]
  refine all_congr_mem _ _ _ fun x _ => ?_
  by_cases h : occ (10 * y + x) = 2 <;> simp [h]

/-- Rows reading pointwise-equal cells are equally full. -/
theorem rowFull_congr (occ1 occ2 : Int → Int) (y1 y2 : Int)
    (h : ∀ x : Int, 0 ≤ x → x ≤ 9 →
      occ1 (10 * y1 + x) = occ2 (10 * y2 + x)) :
    rowFull occ1 y1 = rowFull occ2 y2 := by
  rw [rowFull_eq_all, rowFull_eq_all]
  refine all_congr_mem _ _ _ fun x hx => ?_
  obtain ⟨h1, h2⟩ := (mem_intRange 0 9 x).1 hx
  rw [h x h1 h2]

/-- Value of the row-copy fold: inside the written row the value comes
from the row above (reads are never clobbered, since all writes land in
row `y2` and all reads are from row `y2 - 1`); elsewhere unchanged. -/
theorem copyFold_getValue :
    ∀ (xs : List Int) (occ : Int → Int) (y2 a : Int),
      (∀ x ∈ xs, 0 ≤ x ∧ x ≤ 9) →
      (xs.foldl
        (fun o x => updOcc o (10 * y2 + x) (o (10 * (y2 - 1) + x))) occ) a
        = if ∃ x ∈ xs, a = 10 * y2 + x then occ (a - 10) else occ a := by
  intro xs
  induction xs with
  | nil =>
    intro occ y2 a _
    simp
  | cons x xs ih =>
    intro occ y2 a hb
    rw [List.foldl_cons,
      ih _ y2 a fun z hz => hb z (List.mem_cons_of_mem x hz)]
    obtain ⟨hx0, hx9⟩ := hb x (List.mem_cons_self x xs)
    by_cases hmem : ∃ z ∈ xs, a = 10 * y2 + z
    · obtain ⟨z, hz, hza⟩ := hmem
      obtain ⟨hz0, hz9⟩ := hb z (List.mem_cons_of_mem x hz)
      have hmem2 : ∃ z ∈ x :: xs, a = 10 * y2 + z :=
        ⟨z, List.mem_cons_of_mem x hz, hza⟩
      rw [if_pos ⟨z, hz, hza⟩, if_pos hmem2]
      unfold updOcc
      rw [if_neg (by omega)]
    · rw [if_neg hmem]
      by_cases hxa : a = 10 * y2 + x
      · have hmem2 : ∃ z ∈ x :: xs, a = 10 * y2 + z :=
          ⟨x, List.mem_cons_self x xs, hxa⟩
        rw [if_pos hmem2]
        unfold updOcc
        rw [if_pos hxa]
        congr 1
        omega
      · have hmem2 : ¬∃ z ∈ x :: xs, a = 10 * y2 + z := by
          rintro ⟨z, hz, hza⟩
          rcases List.mem_cons.1 hz with rfl | hz
          · exact hxa hza
          · exact hmem ⟨z, hz, hza⟩
        rw [if_neg hmem2]
        unfold updOcc
        rw [if_neg hxa]

/-- Pointwise value of one row copy. -/
theorem copyRow_getValue (occ : Int → Int) (y2 a : Int) :
    copyRow occ y2 a =
      if 10 * y2 ≤ a ∧ a ≤ 10 * y2 + 9 then occ (a - 10) else occ a := by
  unfold copyRow
  rw [copyFold_getValue (intRange 0 9) occ y2 a
    (fun x hx => (mem_intRange 0 9 x).1 hx)]
  by_cases h : 10 * y2 ≤ a ∧ a ≤ 10 * y2 + 9
  · rw [if_pos h, if_pos ?_]
    exact ⟨a - 10 * y2, (mem_intRange 0 9 _).2 (by omega), by omega⟩
  · rw [if_neg h, if_neg ?_]
    rintro ⟨x, hx, rfl⟩
    obtain ⟨h0, h9⟩ := (mem_intRange 0 9 x).1 hx
    exact h ⟨by omega, by omega⟩

/-- The shift loop does nothing when the cleared row is the top row. -/
theorem shiftLoop_nil (occ : Int → Int) (y : Int) (h : y < 1) :
    shiftLoop occ y = occ := by
  unfold shiftLoop
  have : intRange 1 y = [] := by
    unfold intRange
    have : (y + 1 - 1).toNat = 0 := by omega
    rw [this]
    rfl
  rw [this]
  rfl

/-- The shift loop peels its topmost (largest) row index first. -/
theorem shiftLoop_peel (occ : Int → Int) (y : Int) (h : 1 ≤ y) :
    shiftLoop occ y = shiftLoop (copyRow occ y) (y - 1) := by
  unfold shiftLoop
  rw [intRange_reverse_cons 1 y h, List.foldl_cons]

/-- Pointwise value of the whole shift `main.rs:616-622`: every cell of
rows `1..y` takes the value of the cell ten addresses earlier (one row
up); everything else is unchanged. -/
theorem shiftLoop_getValue_aux :
    ∀ (n : Nat) (occ : Int → Int) (y a : Int), y ≤ (n : Int) →
      shiftLoop occ y a =
        if 10 ≤ a ∧ a ≤ 10 * y + 9 then occ (a - 10) else occ a := by
  intro n
  induction n with
  | zero =>
    intro occ y a hy
    rw [shiftLoop_nil occ y (by omega), if_neg (by omega)]
  | succ n ih =>
    intro occ y a hy
    by_cases h1 : y < 1
    · rw [shiftLoop_nil occ y h1, if_neg (by omega)]
    · rw [shiftLoop_peel occ y (by omega), ih _ (y - 1) a (by omega),
        copyRow_getValue, copyRow_getValue]
      split_ifs <;> first | rfl | omega

/-- Pointwise value of the shift loop. -/
theorem shiftLoop_getValue (occ : Int → Int) (y a : Int) :
    shiftLoop occ y a =
      if 10 ≤ a ∧ a ≤ 10 * y + 9 then occ (a - 10) else occ a := by
  by_cases hy : y ≤ 0
  · rw [shiftLoop_nil occ y (by omega), if_neg (by omega)]
  · exact shiftLoop_getValue_aux y.toNat occ y a (by omega)

/-- Value of the top-row clearing fold: heap cells among the scanned
addresses are zeroed, everything else is unchanged. -/
theorem clearFold_getValue :
    ∀ (xs : List Int) (occ : Int → Int) (a : Int),
      (xs.foldl (fun o x => if o x = 2 then updOcc o x 0 else o) occ) a
        = if a ∈ xs ∧ occ a = 2 then 0 else occ a := by
  intro xs
  induction xs with
  | nil =>
    intro occ a
    simp
  | cons x xs ih =>
    intro occ a
    rw [List.foldl_cons, ih]
    by_cases hax : a = x
    · subst hax
      by_cases h2 : occ a = 2
      · have hv : (updOcc occ a 0) a = 0 := by
          unfold updOcc
          rw [if_pos rfl]
        rw [if_pos h2, hv]
        simp [h2]
      · rw [if_neg h2, if_neg (by rintro ⟨_, h⟩; exact h2 h),
          if_neg (by rintro ⟨_, h⟩; exact h2 h)]
    · have hocc1 : (if occ x = 2 then updOcc occ x 0 else occ) a = occ a := by
        split
        · unfold updOcc
          rw [if_neg hax]
        · rfl
      rw [hocc1]
      by_cases hmem : a ∈ xs ∧ occ a = 2
      · rw [if_pos hmem, if_pos ⟨List.mem_cons_of_mem x hmem.1, hmem.2⟩]
      · rw [if_neg hmem, if_neg ?_]
        rintro ⟨hm, h2⟩
        rcases List.mem_cons.1 hm with rfl | hm
        · exact hax rfl
        · exact hmem ⟨hm, h2⟩

/-- Pointwise value of the top-row clearing. -/
theorem clearTopRow_getValue (occ : Int → Int) (a : Int) :
    clearTopRow occ a =
      if 0 ≤ a ∧ a ≤ 9 ∧ occ a = 2 then 0 else occ a := by
  unfold clearTopRow
  rw [clearFold_getValue]
  by_cases hm : a ∈ intRange 0 9 ∧ occ a = 2
  · obtain ⟨h0, h9⟩ := (mem_intRange 0 9 a).1 hm.1
    rw [if_pos hm, if_pos ⟨h0, h9, hm.2⟩]
  · rw [if_neg hm, if_neg ?_]
    rintro ⟨h0, h9, h2⟩
    exact hm ⟨(mem_intRange 0 9 a).2 ⟨h0, h9⟩, h2⟩

/-- After a clear at row `y ≥ 0` the top row is never full (its heap
cells were just zeroed). -/
theorem clearStep_row_zero (occ : Int → Int) (y : Int) (_hy : 0 ≤ y) :
    rowFull (clearStep occ y) 0 = false := by
  have h0 : clearStep occ y 0 ≠ 2 := by
    unfold clearStep
    rw [clearTopRow_getValue]
    by_cases h : shiftLoop occ y 0 = 2
    · rw [if_pos ⟨le_refl 0, by omega, h⟩]
      omega
    · rw [if_neg (by rintro ⟨_, _, hh⟩; exact h hh)]
      exact h
  rw [rowFull_eq_all]
  have hlist : intRange 0 9 = 0 :: intRange 1 9 := by decide
  rw [hlist, List.all_cons]
  have : (10 : Int) * 0 + 0 = 0 := by ring
  rw [this]
  simp [h0]

/-- After a clear at row `y`, each row `1 ≤ k ≤ y` holds what row
`k - 1` held before. -/
theorem clearStep_row_shift (occ : Int → Int) (y k : Int)
    (h1 : 1 ≤ k) (h2 : k ≤ y) :
    rowFull (clearStep occ y) k = rowFull occ (k - 1) := by
  refine rowFull_congr _ _ _ _ fun x hx0 hx9 => ?_
  unfold clearStep
  rw [clearTopRow_getValue, if_neg (by rintro ⟨_, hle, _⟩; omega),
    shiftLoop_getValue, if_pos ⟨by omega, by omega⟩]
  congr 1
  ring

/-- Rows strictly above the cleared row are untouched. -/
theorem clearStep_row_above (occ : Int → Int) (y k : Int)
    (_hy : 0 ≤ y) (hk : y < k) :
    rowFull (clearStep occ y) k = rowFull occ k := by
  refine rowFull_congr _ _ _ _ fun x hx0 hx9 => ?_
  unfold clearStep
  rw [clearTopRow_getValue, if_neg (by rintro ⟨_, hle, _⟩; omega),
    shiftLoop_getValue, if_neg (by omega)]

/-- Congruence for `List.countP` under pointwise equality on members. -/
theorem countP_congr_mem {α : Type} (l : List α) (f g : α → Bool)
    (h : ∀ x ∈ l, f x = g x) : l.countP f = l.countP g := by
  induction l with
  | nil => rfl
  | cons a l ih =>
    rw [List.countP_cons, List.countP_cons, h a (List.mem_cons_self a l),
      ih fun x hx => h x (List.mem_cons_of_mem a hx)]

/-- A full row makes the full-row count positive. -/
theorem fullCount_pos (occ : Int → Int) (Y : Nat) (hY : Y ≤ 23)
    (hfull : rowFullN occ Y = true) : 1 ≤ fullCount occ := by
  unfold fullCount
  exact List.countP_pos_iff.2 ⟨Y, List.mem_range.2 (by omega), hfull⟩

/-- No full rows means the full-row count vanishes. -/
theorem fullCount_zero (occ : Int → Int)
    (h : ∀ k : Nat, k ≤ 23 → rowFullN occ k = false) : fullCount occ = 0 := by
  unfold fullCount
  rw [List.countP_eq_zero]
  intro k hk
  simp [h k (Nat.lt_succ_iff.1 (List.mem_range.1 hk))]

/-- Clearing one full row `Y` lowers the full-row count by exactly one:
the rows above slide down unchanged, the rows below are untouched, and
the fresh top row is not full. -/
theorem fullCount_clearStep (occ : Int → Int) (Y : Nat) (hY : Y ≤ 23)
    (hfull : rowFullN occ Y = true) :
    fullCount (clearStep occ (Y : Int)) + 1 = fullCount occ := by
  unfold fullCount
  have h24 : (24 : Nat) = (Y + 1) + (23 - Y) := by omega
  rw [h24, List.range_add, List.countP_append, List.countP_append]
  have hzero : rowFullN (clearStep occ (Y : Int)) 0 = false := by
    unfold rowFullN
    rw [Nat.cast_zero]
    exact clearStep_row_zero occ (Y : Int) (by omega)
  have hA : (List.range (Y + 1)).countP
        (fun k => rowFullN (clearStep occ (Y : Int)) k)
      = (List.range Y).countP (fun k => rowFullN occ k) := by
    rw [List.range_succ_eq_map, List.countP_cons, List.countP_map]
    simp only [hzero, if_false]
    refine countP_congr_mem _ _ _ fun j hj => ?_
    have hjY : j < Y := List.mem_range.1 hj
    show rowFullN (clearStep occ (Y : Int)) (Nat.succ j) = rowFullN occ j
    unfold rowFullN
    have hcast : ((Nat.succ j : Nat) : Int) = (j : Int) + 1 := by push_cast; ring
    rw [hcast, clearStep_row_shift occ (Y : Int) ((j : Int) + 1) (by omega)
      (by omega)]
    congr 1
    ring
  have hB : ((List.range (23 - Y)).map (fun i => Y + 1 + i)).countP
        (fun k => rowFullN (clearStep occ (Y : Int)) k)
      = ((List.range (23 - Y)).map (fun i => Y + 1 + i)).countP
        (fun k => rowFullN occ k) := by
    refine countP_congr_mem _ _ _ fun k hk => ?_
    obtain ⟨i, _, rfl⟩ := List.mem_map.1 hk
    unfold rowFullN
    exact clearStep_row_above occ (Y : Int) ((Y + 1 + i : Nat) : Int)
      (by omega) (by push_cast; omega)
  have hR : (List.range (Y + 1)).countP (fun k => rowFullN occ k)
      = (List.range Y).countP (fun k => rowFullN occ k) + 1 := by
    rw [List.range_succ, List.countP_append, List.countP_cons]
    simp [hfull]
  rw [hA, hB, hR]
  omega

/-- Total correctness of the bottom-up row scan, by induction on fuel
with the measure `fullCount · 25 + (y+1)`: every clear lowers the
full-row count by one (25 measure units), every non-full row lowers `y`
by one (one unit).  The invariant carries that every row strictly below
the scan index (larger index) is already non-full. -/
theorem scanLoop_runs :
    ∀ (fuel : Nat) (occ : Int → Int) (y : Int) (count : Nat),
      y ≤ 23 →
      (∀ k : Nat, k ≤ 23 → y < (k : Int) → rowFullN occ k = false) →
      fullCount occ * 25 + (y + 1).toNat < fuel →
      ∃ r : (Int → Int) × Nat, scanLoop fuel occ y count = some r ∧
        r.2 = count + fullCount occ ∧
        ∀ k : Nat, k ≤ 23 → rowFullN r.1 k = false := by
  intro fuel
  induction fuel with
  | zero =>
    intro occ y count _ _ hfuel
    omega
  | succ fuel ih =>
    intro occ y count hy hinv hfuel
    by_cases hneg : y < 0
    · refine ⟨(occ, count), ?_, ?_, ?_⟩
      · simp [scanLoop, hneg]
      · have h0 : fullCount occ = 0 :=
          fullCount_zero occ fun k hk => hinv k hk (by omega)
        simp [h0]
      · exact fun k hk => hinv k hk (by omega)
    · push_neg at hneg
      by_cases hfull : rowFull occ y = true
      · have hYc : ((y.toNat : Nat) : Int) = y := by omega
        have hYle : y.toNat ≤ 23 := by omega
        have hfullN : rowFullN occ y.toNat = true := by
          unfold rowFullN
          rw [hYc]
          exact hfull
        have hfc : fullCount (clearStep occ y) + 1 = fullCount occ := by
          rw [← hYc]
          exact fullCount_clearStep occ y.toNat hYle hfullN
        have hinv2 : ∀ k : Nat, k ≤ 23 → y < (k : Int) →
            rowFullN (clearStep occ y) k = false := by
          intro k hk hyk
          unfold rowFullN
          rw [clearStep_row_above occ y (k : Int) hneg hyk]
          exact hinv k hk hyk
        have hfuel2 : fullCount (clearStep occ y) * 25 + (y + 1).toNat
            < fuel := by omega
        obtain ⟨r, hr1, hr2, hr3⟩ :=
          ih (clearStep occ y) y (count + 1) hy hinv2 hfuel2
        have hstep : scanLoop (fuel + 1) occ y count
            = scanLoop fuel (clearStep occ y) y (count + 1) := by
          have hn : ¬ y < 0 := by omega
          simp [scanLoop, hn, hfull]
        refine ⟨r, by rw [hstep]; exact hr1, by omega, hr3⟩
      · have hfalse : rowFull occ y = false := by
          simp only [Bool.not_eq_true] at hfull
          exact hfull
        have hinv2 : ∀ k : Nat, k ≤ 23 → y - 1 < (k : Int) →
            rowFullN occ k = false := by
          intro k hk hyk
          by_cases heq : (k : Int) = y
          · unfold rowFullN
            rw [heq]
            exact hfalse
          · exact hinv k hk (by omega)
        obtain ⟨r, hr1, hr2, hr3⟩ :=
          ih occ (y - 1) count (by omega) hinv2 (by omega)
        have hstep : scanLoop (fuel + 1) occ y count
            = scanLoop fuel occ (y - 1) count := by
          have hn : ¬ y < 0 := by omega
          simp [scanLoop, hn, hfull]
        exact ⟨r, by rw [hstep]; exact hr1, hr2, hr3⟩

/-! ## Claim C7: the line-clear cascade -/

/-- Claim C7: (i) from any grid, the scan started at the bottom row
with the stated fuel terminates — it reaches the `y < 0` exit and
returns — having removed **every** full row (none remains in the
result), and reports exactly the number of full rows of the input grid
(0 if none); (ii) the same, stated for the packaged `lineClearRun`;
(iii) after clearing a full row the **same** row index is rescanned
with the cascade counter incremented; (iv) a non-full row decrements
the row index.  Termination is the `some`-result of (i): the only
return of the loop is the `y < 0` branch. -/
theorem C7_line_clear_scan_terminates_and_counts :
    (∀ occ : Int → Int,
      ∃ r : (Int → Int) × Nat,
        scanLoop (fullCount occ * 25 + 25) occ 23 0 = some r ∧
        r.2 = fullCount occ ∧
        ∀ k : Nat, k ≤ 23 → rowFullN r.1 k = false) ∧
    (∀ occ : Int → Int, (lineClearRun occ).2 = fullCount occ ∧
      ∀ k : Nat, k ≤ 23 → rowFullN (lineClearRun occ).1 k = false) ∧
    (∀ (fuel : Nat) (occ : Int → Int) (y : Int) (c : Nat), 0 ≤ y →
      rowFull occ y = true →
      scanLoop (fuel + 1) occ y c =
        scanLoop fuel (clearStep occ y) y (c + 1)) ∧
    (∀ (fuel : Nat) (occ : Int → Int) (y : Int) (c : Nat), 0 ≤ y →
      rowFull occ y = false →
      scanLoop (fuel + 1) occ y c = scanLoop fuel occ (y - 1) c) := by
  have hmain : ∀ occ : Int → Int,
      ∃ r : (Int → Int) × Nat,
        scanLoop (fullCount occ * 25 + 25) occ 23 0 = some r ∧
        r.2 = fullCount occ ∧
        ∀ k : Nat, k ≤ 23 → rowFullN r.1 k = false := by
    intro occ
    obtain ⟨r, hr1, hr2, hr3⟩ :=
      scanLoop_runs (fullCount occ * 25 + 25) occ 23 0 (by omega)
        (fun k hk hlt => absurd hlt (by omega)) (by omega)
    exact ⟨r, hr1, by omega, hr3⟩
  refine ⟨hmain, ?_, ?_, ?_⟩
  · intro occ
    obtain ⟨r, hr1, hr2, hr3⟩ := hmain occ
    unfold lineClearRun
    rw [hr1]
    exact ⟨hr2, hr3⟩
  · intro fuel occ y c hy hfull
    have hn : ¬ y < 0 := by omega
    simp [scanLoop, hn, hfull]
  · intro fuel occ y c hy hfull
    have hn : ¬ y < 0 := by omega
    simp [scanLoop, hn, hfull]

/-- Witness for claim C7: the scan of the empty grid terminates with
cascade count `fullCount c7occ`, and on a grid with a full bottom row
one step of the scan clears it and rescans row 23 with the counter at
1. -/
theorem C7_line_clear_witness :
    (∃ r : (Int → Int) × Nat,
      scanLoop (fullCount c7occ * 25 + 25) c7occ 23 0 = some r ∧
      r.2 = fullCount c7occ ∧
      ∀ k : Nat, k ≤ 23 → rowFullN r.1 k = false) ∧
    rowFull c7full 23 = true ∧
    scanLoop 1 c7full 23 0 = scanLoop 0 (clearStep c7full 23) 23 1 :=
  ⟨C7_line_clear_scan_terminates_and_counts.1 c7occ, by decide,
   C7_line_clear_scan_terminates_and_counts.2.2.1 0 c7full 23 0 (by omega)
     (by decide)⟩

end Tetris
